import Mathlib

/-
  Verification of the EcoSpark unstructured-response interpretation pipeline.

  Shallow embedding of the routines in EcoSpark/core/views.py and
  EcoSpark/core/utils/ai.py. Text is modelled as List Char; the numeric values
  that the Python code holds in floats are modelled as exact rationals; calls
  to external HTTP providers are modelled by oracle structures holding the
  responses the providers would return; Python exceptions that escape a view
  are modelled with Except.

  Note on the rupee sign: in the source file the regular expressions of
  value_estimator contain the three characters U+00E2, U+201A, U+00B9
  (the bytes of the UTF-8 encoded rupee sign re-decoded as cp1252), with the
  last of the three made optional by the following question mark. The
  embedding reproduces those three literal characters.
-/

namespace EcoSpark

/-! ### Character and string utilities (ASCII models of the Python str methods) -/

def lowerChar (c : Char) : Char :=
  if 'A' ≤ c ∧ c ≤ 'Z' then Char.ofNat (c.toNat + 32) else c

def upperChar (c : Char) : Char :=
  if 'a' ≤ c ∧ c ≤ 'z' then Char.ofNat (c.toNat - 32) else c

def lowerStr (s : List Char) : List Char := s.map lowerChar

def upperStr (s : List Char) : List Char := s.map upperChar

def isSpaceChar (c : Char) : Bool :=
  c = ' ' ∨ c = '\t' ∨ c = '\n' ∨ c = '\r' ∨ c = '\x0b' ∨ c = '\x0c'

def isDigitChar (c : Char) : Bool := '0' ≤ c ∧ c ≤ '9'

/-- Python str.strip with no argument: drop whitespace from both ends. -/
def stripStr (s : List Char) : List Char :=
  ((s.dropWhile isSpaceChar).reverse.dropWhile isSpaceChar).reverse

/-- Python substring containment (needle in haystack). -/
def containsSub (needle : List Char) : List Char → Bool
  | [] => needle.isPrefixOf []
  | s@(_ :: t) => needle.isPrefixOf s || containsSub needle t

/-- Python str.split(sep, 1) when sep occurs: the parts before and after the
first occurrence. Returns none when sep does not occur. -/
def splitOnceStr (sep : List Char) : List Char → Option (List Char × List Char)
  | [] => if sep = [] then some ([], []) else none
  | s@(c :: t) =>
    if sep.isPrefixOf s then some ([], s.drop sep.length)
    else (splitOnceStr sep t).map (fun p => (c :: p.1, p.2))

/-- The part of s before the first occurrence of the character stop
(s.split(stop)[0]). -/
def takeUntil (stop : Char) (s : List Char) : List Char :=
  s.takeWhile (fun c => !(c == stop))

/-- Split at the first occurrence of a character; when absent, the whole list
is the first component. -/
def splitFirstOn (stop : Char) : List Char → List Char × List Char
  | [] => ([], [])
  | c :: t =>
    if c = stop then ([], t)
    else
      let p := splitFirstOn stop t
      (c :: p.1, p.2)

def joinSep (sep : List Char) : List (List Char) → List Char
  | [] => []
  | [x] => x
  | x :: xs => x ++ sep ++ joinSep sep xs

/-- Python str.splitlines restricted to the line breaks exercised here. -/
def splitlinesAux : List Char → List Char → List (List Char)
  | [], acc => if acc = [] then [] else [acc.reverse]
  | '\r' :: '\n' :: rest, acc => acc.reverse :: splitlinesAux rest []
  | '\n' :: rest, acc => acc.reverse :: splitlinesAux rest []
  | '\r' :: rest, acc => acc.reverse :: splitlinesAux rest []
  | c :: rest, acc => splitlinesAux rest (c :: acc)

def splitlinesStr (s : List Char) : List (List Char) := splitlinesAux s []

/-- Numeric value of a list of decimal digit characters. -/
def natOfDigits (l : List Char) : Nat :=
  l.foldl (fun a c => a * 10 + (c.toNat - 48)) 0

/-! ### The regular-expression searches of value_estimator (views.py 744-765)

Each Python pattern is specialised into an executable matcher. A matcher
tries the pattern anchored at the head of its argument; reSearch then tries
every start position from the left, exactly as re.search does. In each of
the patterns used here every greedy repetition is followed by a character
that its class cannot contain, so greedy matching without backtracking is
exact. -/

def colonSpaceClass (c : Char) : Bool := c = ':' ∨ isSpaceChar c

def digitDotClass (c : Char) : Bool := isDigitChar c ∨ c = '.'

def digitCommaClass (c : Char) : Bool := isDigitChar c ∨ c = ','

/-- Consume one or more leading characters of a class (a greedy plus). -/
def takeClass1 (cls : Char → Bool) (s : List Char) : Option (List Char × List Char) :=
  let cap := s.takeWhile cls
  if cap = [] then none else some (cap, s.drop cap.length)

/-- Case-insensitive literal prefix (ASCII folding, as re.IGNORECASE for the
ASCII pattern letters used here). -/
def stripPrefixCI : List Char → List Char → Option (List Char)
  | [], s => some s
  | _, [] => none
  | p :: ps, c :: cs => if lowerChar p = lowerChar c then stripPrefixCI ps cs else none

/-- Anchored matcher for the quantity pattern Name[:\s]+([0-9.]+)\s*g with
IGNORECASE; returns the captured group. -/
def matchQtyAt (name : List Char) (s : List Char) : Option (List Char) := do
  let s1 ← stripPrefixCI name s
  let p2 ← takeClass1 colonSpaceClass s1
  let p3 ← takeClass1 digitDotClass p2.2
  let s4 := p3.2.dropWhile isSpaceChar
  match s4 with
  | c :: _ => if lowerChar c = 'g' then some p3.1 else none
  | [] => none

/-- Anchored matcher for the price patterns: Name, then [:\s]+, then the two
mojibake characters U+00E2 U+201A, then an optional U+00B9, then the capture
class (digits with comma for gold, digits with dot for copper and silver). -/
def matchPriceAt (name : List Char) (cls : Char → Bool) (s : List Char) : Option (List Char) := do
  let s1 ← stripPrefixCI name s
  let p2 ← takeClass1 colonSpaceClass s1
  match p2.2 with
  | a :: b :: s3 =>
    if a = 'â' ∧ b = '‚' then
      let s4 := match s3 with
        | c :: rest => if c = '¹' then rest else s3
        | [] => s3
      (takeClass1 cls s4).map (fun p => p.1)
    else none
  | _ => none

/-- Model of re.search: try the anchored matcher at every start position,
from the left; the leftmost match wins. -/
def reSearch {α : Type} (p : List Char → Option α) : List Char → Option α
  | [] => p []
  | s@(_ :: t) =>
    match p s with
    | some r => some r
    | none => reSearch p t

def goldQty (t : List Char) : Option (List Char) := reSearch (matchQtyAt "Gold".data) t

def copperQty (t : List Char) : Option (List Char) := reSearch (matchQtyAt "Copper".data) t

def silverQty (t : List Char) : Option (List Char) := reSearch (matchQtyAt "Silver".data) t

def goldPrice (t : List Char) : Option (List Char) :=
  reSearch (matchPriceAt "Gold".data digitCommaClass) t

def copperPrice (t : List Char) : Option (List Char) :=
  reSearch (matchPriceAt "Copper".data digitDotClass) t

def silverPrice (t : List Char) : Option (List Char) :=
  reSearch (matchPriceAt "Silver".data digitDotClass) t

/-! ### float conversions of the captured groups -/

/-- Python float() applied to a string drawn from the class [0-9.]:
defined (one value) iff there is at least one digit and at most one dot. -/
def floatOfDigitDot (s : List Char) : Option ℚ :=
  if s.any isDigitChar = true ∧ s.count '.' ≤ 1 then
    some ((natOfDigits (splitFirstOn '.' s).1 : ℚ) +
      (natOfDigits (splitFirstOn '.' s).2 : ℚ) / 10 ^ (splitFirstOn '.' s).2.length)
  else none

/-- Python float(x.replace(",", "")) applied to a string drawn from the
class [0-9,]: strip the commas, fail on an empty remainder. -/
def floatOfCommaDigits (s : List Char) : Option ℚ :=
  if s.filter (fun c => !(c == ',')) = [] then none
  else some ((natOfDigits (s.filter (fun c => !(c == ','))) : ℚ))

/-! ### value_estimator (views.py 717-783) -/

structure Metals where
  gold_g : ℚ
  copper_g : ℚ
  silver_g : ℚ
deriving DecidableEq

structure Prices where
  gold_g : ℚ
  copper_g : ℚ
  silver_g : ℚ
deriving DecidableEq

/-- On a quantity match overwrite the default with the parsed float; a
ValueError from float() escapes the view, modelled as error. -/
def applyQty (search : Option (List Char)) (cur : ℚ) : Except Unit ℚ :=
  match search with
  | none => .ok cur
  | some cap =>
    match floatOfDigitDot cap with
    | some v => .ok v
    | none => .error ()

def applyPriceComma (search : Option (List Char)) (cur : ℚ) : Except Unit ℚ :=
  match search with
  | none => .ok cur
  | some cap =>
    match floatOfCommaDigits cap with
    | some v => .ok v
    | none => .error ()

def applyPriceDot (search : Option (List Char)) (cur : ℚ) : Except Unit ℚ :=
  match search with
  | none => .ok cur
  | some cap =>
    match floatOfDigitDot cap with
    | some v => .ok v
    | none => .error ()

/-- The silver price also runs replace(",", "") before float(), although its
capture class cannot contain a comma. -/
def applyPriceDotReplace (search : Option (List Char)) (cur : ℚ) : Except Unit ℚ :=
  match search with
  | none => .ok cur
  | some cap =>
    match floatOfDigitDot (cap.filter (fun c => !(c == ','))) with
    | some v => .ok v
    | none => .error ()

/-- The six regex extractions of value_estimator, in source order, with the
preset defaults metals = 0.0 and prices gold 7000.0, copper 0.9, silver 90.0.
The first extraction whose float() raises propagates the error. -/
def parseMetalsPrices (ai_response : List Char) : Except Unit (Metals × Prices) :=
  match applyQty (goldQty ai_response) 0 with
  | .error e => .error e
  | .ok gold_g =>
    match applyPriceComma (goldPrice ai_response) 7000 with
    | .error e => .error e
    | .ok gold_p =>
      match applyQty (copperQty ai_response) 0 with
      | .error e => .error e
      | .ok copper_g =>
        match applyPriceDot (copperPrice ai_response) 0.9 with
        | .error e => .error e
        | .ok copper_p =>
          match applyQty (silverQty ai_response) 0 with
          | .error e => .error e
          | .ok silver_g =>
            match applyPriceDotReplace (silverPrice ai_response) 90 with
            | .error e => .error e
            | .ok silver_p =>
              .ok (⟨gold_g, copper_g, silver_g⟩, ⟨gold_p, copper_p, silver_p⟩)

/-- base_value = sum over the metal keys of quantity times price. -/
def rawBase (m : Metals) (p : Prices) : ℚ :=
  m.gold_g * p.gold_g + m.copper_g * p.copper_g + m.silver_g * p.silver_g

/-- depreciation_factor = max(0.3, 1 - (age_years * 0.05)). -/
def depreciation_factor (age_years : ℚ) : ℚ := max 0.3 (1 - age_years * 0.05)

/-- round(x, 2), modelled on exact rationals. -/
def round2 (x : ℚ) : ℚ := ((round (x * 100) : ℤ) : ℚ) / 100

structure EstimateResult where
  metals : Metals
  prices : Prices
  age_years : ℚ
  base_value : ℚ
  estimated_payout : ℚ
deriving DecidableEq

def value_estimator (ai_response : List Char) (age_years : ℚ) : Except Unit EstimateResult :=
  (parseMetalsPrices ai_response).map fun mp =>
    { metals := mp.1
      prices := mp.2
      age_years := age_years
      base_value := round2 (rawBase mp.1 mp.2)
      estimated_payout := round2 (rawBase mp.1 mp.2 * depreciation_factor age_years) }

/-! ### quiz (views.py 416-462): line-oriented question extraction -/

structure QuizOption where
  label : Char
  text : List Char
deriving DecidableEq

structure QuizQuestion where
  q : List Char
  options : List QuizOption
  answer : Option Char
deriving DecidableEq

def numMarkers : List (List Char) :=
  ["1.", "2.", "3.", "4.", "5.", "Q1", "Q2", "Q3", "Q4", "Q5"].map String.data

def optColonMarkers : List (List Char) := ["A:", "B:", "C:", "D:"].map String.data

def ansMarkers : List (List Char) := ["ANSWER:", "CORRECT:", "ANS:"].map String.data

def startsWithAny (ms : List (List Char)) (s : List Char) : Bool :=
  ms.any (fun m => m.isPrefixOf s)

/-- ln.split(".", 1)[-1]: the part after the first dot when a dot occurs,
otherwise the whole line. -/
def splitDotRest (ln : List Char) : List Char :=
  if ln.contains '.' then (splitFirstOn '.' ln).2 else ln

/-- The test len(lnu) > 2 and lnu[1] = right paren and lnu[0] in ABCD. -/
def parenOptionTest (lnu : List Char) : Bool :=
  match lnu with
  | a :: b :: _ :: _ => b = ')' ∧ a ∈ ['A', 'B', 'C', 'D']
  | _ => false

/-- One iteration of the line loop of quiz, acting on (questions, current). -/
def quizStep (st : List QuizQuestion × QuizQuestion) (ln : List Char) :
    List QuizQuestion × QuizQuestion :=
  let lnu := upperStr ln
  if startsWithAny numMarkers lnu then
    let questions := if st.2.q ≠ [] then st.1 ++ [st.2] else st.1
    let qtext := if stripStr (splitDotRest ln) = [] then ln else stripStr (splitDotRest ln)
    (questions, ⟨qtext, [], none⟩)
  else if startsWithAny optColonMarkers lnu ∨ parenOptionTest lnu = true then
    let label := lnu.headD 'A'
    let text := if (ln.take 3).contains ':' then stripStr (ln.drop 2) else stripStr (ln.drop 3)
    (st.1, ⟨st.2.q, st.2.options ++ [⟨label, text⟩], st.2.answer⟩)
  else if startsWithAny ansMarkers lnu then
    match ['A', 'B', 'C', 'D'].find? (fun ch => lnu.contains ch) with
    | some ch => (st.1, ⟨st.2.q, st.2.options, some ch⟩)
    | none => st
  else st

/-- The for-loop over the non-empty stripped lines, with the break once five
questions have been committed. -/
def quizLoop : List (List Char) → List QuizQuestion × QuizQuestion →
    List QuizQuestion × QuizQuestion
  | [], st => st
  | ln :: rest, st =>
    if 5 ≤ st.1.length then st else quizLoop rest (quizStep st ln)

def templateQuestion (idx : Nat) : QuizQuestion :=
  { q := "Which is best for e-waste? (Q".data ++ Nat.toDigits 10 idx ++ ")".data
    options :=
      [⟨'A', "Throw in regular trash".data⟩,
       ⟨'B', "Burn to reduce volume".data⟩,
       ⟨'C', "Recycle at certified center".data⟩,
       ⟨'D', "Dump in river".data⟩]
    answer := some 'C' }

/-- The while-loop that pads with template questions until length 5, written
with the fuel 5 that bounds its iteration count for every start length. -/
def padTemplatesFrom : Nat → Nat → List QuizQuestion
  | 0, _ => []
  | fuel + 1, n => if n < 5 then templateQuestion (n + 1) :: padTemplatesFrom fuel (n + 1) else []

/-- The post-filter of quiz: non-empty prompt, exactly 4 options, answer in
ABCD. Label distinctness is not tested. -/
def validQuestion (q : QuizQuestion) : Bool :=
  (q.q != []) && (q.options.length == 4) &&
    (match q.answer with
     | some c => ['A', 'B', 'C', 'D'].contains c
     | none => false)

/-- The line preparation of quiz: split, strip, drop empties. -/
def quizLines (raw : List Char) : List (List Char) :=
  ((splitlinesStr raw).map stripStr).filter (fun l => !l.isEmpty)

/-- After the loop: commit the pending question when non-empty and fewer
than five are committed. -/
def quizCommit (st : List QuizQuestion × QuizQuestion) : List QuizQuestion :=
  if st.2.q ≠ [] ∧ st.1.length < 5 then st.1 ++ [st.2] else st.1

/-- The tail of quiz: filter, then pad with templates to five. -/
def quizAssemble (st : List QuizQuestion × QuizQuestion) : List QuizQuestion :=
  (quizCommit st).filter validQuestion ++
    padTemplatesFrom 5 ((quizCommit st).filter validQuestion).length

/-- The full question construction of quiz on the raw provider text. -/
def quizQuestions (raw : List Char) : List QuizQuestion :=
  quizAssemble (quizLoop (quizLines raw) ([], ⟨[], [], none⟩))

/-! ### decision (views.py 485-520): recommendation extraction -/

def recMarker : List Char := "RECOMMENDATION:".data

/-- The parse of the AI text in decision: returns (decision_word, reason). -/
def decisionParse (text : List Char) : List Char × List Char :=
  if containsSub recMarker (upperStr text) then
    match splitOnceStr recMarker text with
    | some p =>
      let rec_line := stripStr (takeUntil '\n' p.2)
      ((if containsSub "reuse".data (lowerStr rec_line) then "Reuse".data else "Recycle".data),
       stripStr p.2)
    | none => ("Recycle".data, text)
  else if "reuse".data.isPrefixOf (lowerStr text) ∨
      containsSub " reuse ".data ((lowerStr text).take 50) then
    ("Reuse".data, text)
  else
    ("Recycle".data, text)

/-! ### centers_nearby_api (views.py 101-396): geo result reconciliation -/

structure GPlace where
  displayName : Option (List Char)
  formattedAddress : Option (List Char)
  lat : Option ℚ
  lng : Option ℚ
  types : List (List Char)
  rating : Option ℚ
  userRatingCount : Option ℚ
  phone : Option (List Char)
  website : Option (List Char)
deriving DecidableEq

structure YelpBusiness where
  name : Option (List Char)
  displayAddress : List (List Char)
  lat : Option ℚ
  lng : Option ℚ
deriving DecidableEq

structure GeoResult where
  name : List Char
  address : List Char
  latitude : ℚ
  longitude : ℚ
  source : List Char
  types : List (List Char)
  rating : Option ℚ
  userRatingCount : Option ℚ
  phone : Option (List Char)
  website : Option (List Char)
deriving DecidableEq

structure MapBounds where
  sw_lat : Option ℚ
  sw_lng : Option ℚ
  ne_lat : Option ℚ
  ne_lng : Option ℚ
deriving DecidableEq

/-- The helper of views.py 147-154: inclusive bounding box, true when any
corner coordinate is missing. -/
def within_bounds (b : MapBounds) (lat_v lng_v : ℚ) : Bool :=
  match b.sw_lat, b.sw_lng, b.ne_lat, b.ne_lng with
  | some sa, some sb, some na, some nb =>
    (sa ≤ lat_v ∧ lat_v ≤ na) ∧ (sb ≤ lng_v ∧ lng_v ≤ nb)
  | _, _, _, _ => true

/-- x or default for the optional provider strings: missing or empty takes
the default. -/
def orDefaultStr (o : Option (List Char)) (d : List Char) : List Char :=
  match o with
  | some s => if s = [] then d else s
  | none => d

def addressBlacklistUS (addr : List Char) : Bool :=
  containsSub "United States".data addr || ", USA".data.isSuffixOf addr

/-- The displayed name of a Google place with its default. -/
def gName (p : GPlace) : List Char := orDefaultStr p.displayName "Recycling Center".data

/-- The formatted address of a Google place with its default. -/
def gAddr (p : GPlace) : List Char := orDefaultStr p.formattedAddress "Address unavailable".data

/-- Normalisation of one place record on the Google nearby-search path
(views.py 277-306): USA blacklist, coordinate presence, longitude filter,
bounds filter. -/
def nearbyEntry (excludeUs : Bool) (b : MapBounds) (p : GPlace) : Option GeoResult :=
  if excludeUs = true ∧ gAddr p ≠ [] ∧ addressBlacklistUS (gAddr p) = true then none
  else
    match p.lat, p.lng with
    | some la, some ln =>
      if excludeUs = true ∧ ln < -30 then none
      else if within_bounds b la ln = false then none
      else some ⟨gName p, gAddr p, la, ln, "google_places_new_nearby".data,
        p.types, p.rating, p.userRatingCount, p.phone, p.website⟩
    | _, _ => none

/-- Normalisation on the zero-result text-search path (views.py 331-358):
same filters as the nearby path, source tag google_places_new_text. -/
def textEntry (excludeUs : Bool) (b : MapBounds) (p : GPlace) : Option GeoResult :=
  if excludeUs = true ∧ gAddr p ≠ [] ∧ addressBlacklistUS (gAddr p) = true then none
  else
    match p.lat, p.lng with
    | some la, some ln =>
      if excludeUs = true ∧ ln < -30 then none
      else if within_bounds b la ln = false then none
      else some ⟨gName p, gAddr p, la, ln, "google_places_new_text".data,
        p.types, p.rating, p.userRatingCount, p.phone, p.website⟩
    | _, _ => none

/-- Normalisation on the nearby-error text fallback path (views.py 256-271):
coordinate presence and bounds only, no country filters, no extra fields. -/
def textFallbackEntry (b : MapBounds) (p : GPlace) : Option GeoResult :=
  match p.lat, p.lng with
  | some la, some ln =>
    if within_bounds b la ln = false then none
    else some ⟨gName p, gAddr p, la, ln, "google_places_new_text".data,
      [], none, none, none, none⟩
  | _, _ => none

/-- The name of a Yelp business with its default. -/
def yName (bz : YelpBusiness) : List Char := orDefaultStr bz.name "Recycling Center".data

/-- The joined display address of a Yelp business with its default. -/
def yAddr (bz : YelpBusiness) : List Char :=
  if joinSep ", ".data bz.displayAddress = [] then "Address unavailable".data
  else joinSep ", ".data bz.displayAddress

/-- Normalisation of one Yelp business (views.py 378-389): the coordinates
are tested by truthiness, so a coordinate equal to 0 is dropped; no bounds
filter is applied on this path. -/
def yelpEntry (bz : YelpBusiness) : Option GeoResult :=
  match bz.lat, bz.lng with
  | some la, some ln =>
    if la ≠ 0 ∧ ln ≠ 0 then
      some ⟨yName bz, yAddr bz, la, ln, "yelp".data, [], none, none, none, none⟩
    else none
  | _, _ => none

structure GeoConfig where
  q : List Char
  country : List Char
  lat : Option ℚ
  lng : Option ℚ
  radius_km : ℚ
  bounds : MapBounds
  gmapsKey : Option (List Char)
  yelpKey : Option (List Char)
deriving DecidableEq

/-- Oracle for the provider HTTP calls: status flags and the place lists the
providers would return. -/
structure GeoNetwork where
  googleRaises : Bool
  geocodeOk : Bool
  geocodePlaces : List GPlace
  nearbyOk : Bool
  nearbyPlaces : List GPlace
  textOk : Bool
  textPlaces : List GPlace
  yelpOk : Bool
  yelpBusinesses : List YelpBusiness
deriving DecidableEq

structure GeoResponse where
  centers : List GeoResult
  errorMsg : Option (List Char)
  status : Nat
deriving DecidableEq

def noProviderMsg : List Char :=
  "No external provider configured. Set GOOGLE_MAPS_API_KEY (or GOOGLE_PLACES_API_KEY) or YELP_API_KEY in .env.".data

/-- exclude_us: the user selected a country other than the US. -/
def excludeUsFlag (cfg : GeoConfig) : Bool :=
  (cfg.country != []) && (cfg.country != "us".data)

/-- The search phase of the Google branch: nearby search, text fallback on
nearby error, broader text search on zero results. -/
def googleSearchPhase (cfg : GeoConfig) (net : GeoNetwork) : GeoResponse :=
  if net.nearbyOk then
    if (net.nearbyPlaces.filterMap (nearbyEntry (excludeUsFlag cfg) cfg.bounds)).isEmpty then
      if net.textOk then
        ⟨net.textPlaces.filterMap (textEntry (excludeUsFlag cfg) cfg.bounds), none, 200⟩
      else ⟨[], some "google_places_new_text error".data, 502⟩
    else ⟨net.nearbyPlaces.filterMap (nearbyEntry (excludeUsFlag cfg) cfg.bounds), none, 200⟩
  else
    if net.textOk then ⟨net.textPlaces.filterMap (textFallbackEntry cfg.bounds), none, 200⟩
    else ⟨[], some "google_places_new nearby and text errors".data, 502⟩

/-- The coordinates the geocoding text search would resolve: the location of
the first returned place, when the call succeeds and both are present. -/
def geocodeResult (net : GeoNetwork) : Option (ℚ × ℚ) :=
  if net.geocodeOk then
    match net.geocodePlaces with
    | p :: _ =>
      match p.lat, p.lng with
      | some a, some b => some (a, b)
      | _, _ => none
    | [] => none
  else none

/-- The Google branch: an escaped exception gives 502; with a textual query
and missing coordinates, resolve them first and answer 400 when resolution
fails. -/
def googleBranch (cfg : GeoConfig) (net : GeoNetwork) : GeoResponse :=
  if net.googleRaises then ⟨[], some "Google Places (New) failed".data, 502⟩
  else if cfg.q ≠ [] ∧ (cfg.lat.isNone ∨ cfg.lng.isNone) then
    match geocodeResult net with
    | some _ => googleSearchPhase cfg net
    | none =>
      match cfg.lat, cfg.lng with
      | some _, some _ => googleSearchPhase cfg net
      | _, _ => ⟨[], some "Could not resolve place to coordinates".data, 400⟩
  else googleSearchPhase cfg net

/-- The provider dispatch of centers_nearby_api: Google when its key is set,
else Yelp when its key is set, else the 412 no-provider error. -/
def centers_nearby_api (cfg : GeoConfig) (net : GeoNetwork) : GeoResponse :=
  if cfg.gmapsKey.isSome then googleBranch cfg net
  else if cfg.yelpKey.isSome then
    if net.yelpOk then ⟨net.yelpBusinesses.filterMap yelpEntry, none, 200⟩
    else ⟨[], some "Yelp search failed".data, 502⟩
  else ⟨[], some noProviderMsg, 412⟩

/-! ### get_ai_explanation (utils/ai.py 8-98): provider client -/

structure GenModel where
  name : List Char
  supported_generation_methods : List (List Char)
deriving DecidableEq

/-- The outcome of one generate_content call: an exception, or a response
whose extracted text may still be empty or whitespace. -/
inductive GenOutcome where
  | exc : GenOutcome
  | text : List Char → GenOutcome
deriving DecidableEq

/-- Oracle for the provider SDK: the credential, the explicit model name,
whether configuration itself raises, the list_models outcome, and the
per-model generate_content outcomes. -/
structure AIEnv where
  gemini_key : Option (List Char)
  explicit_model : Option (List Char)
  configure_raises : Bool
  list_models : Except Unit (List GenModel)
  generate : List Char → GenOutcome

def supports_text (m : GenModel) : Bool :=
  m.supported_generation_methods.contains "generateContent".data ||
    m.supported_generation_methods.contains "generate_text".data

def preferred_order : List (List Char) :=
  ["gemini-1.5-flash-002", "gemini-1.5-flash-latest", "gemini-1.5-pro-002",
   "gemini-1.5-pro-latest", "gemini-pro"].map String.data

def matchesPreferred (preferred cand : List Char) : Bool :=
  cand == preferred || ("/".data ++ preferred).isSuffixOf cand

/-- ordered_to_try: for each preferred name append the matching candidates
not yet taken, then append the remaining candidates in discovery order. -/
def orderedToTry (candidate_names : List (List Char)) : List (List Char) :=
  let first := preferred_order.foldl
    (fun acc preferred =>
      candidate_names.foldl
        (fun acc cand =>
          if matchesPreferred preferred cand && !(acc.contains cand) then acc ++ [cand] else acc)
        acc)
    []
  candidate_names.foldl (fun acc cand => if acc.contains cand then acc else acc ++ [cand]) first

/-- One model attempt: none on an exception or on empty (after strip) text,
otherwise the stripped text. -/
def try_model (env : AIEnv) (model_name : List Char) : Option (List Char) :=
  match env.generate model_name with
  | .exc => none
  | .text t =>
    let s := stripStr t
    if s = [] then none else some s

def try_models_loop (env : AIEnv) : List (List Char) → Option (List Char)
  | [] => none
  | m :: rest =>
    match try_model env m with
    | some t => some t
    | none => try_models_loop env rest

def fallback_text : List Char :=
  ("AI key not configured. For demo: Many e-waste components can leach toxic substances like lead, " ++
   "mercury, and brominated flame retardants. These can contaminate soil and water, harm the nervous " ++
   "and endocrine systems, and persist in the environment. Always dispose of devices at certified " ++
   "recycling centers to reduce exposure and enable safe material recovery.").data

/-- The discovered candidate names: the models that support text generation,
in discovery order; an exception from list_models gives the empty list. -/
def discoveredNames (env : AIEnv) : List (List Char) :=
  (((match env.list_models with
     | .ok l => l
     | .error _ => []) : List GenModel).filter supports_text).map (fun m => m.name)

def get_ai_explanation (env : AIEnv) : List Char :=
  match env.gemini_key with
  | none => fallback_text
  | some _ =>
    if env.configure_raises then fallback_text
    else
      let fromExplicit :=
        match env.explicit_model with
        | some m => try_model env m
        | none => none
      match fromExplicit with
      | some t => t
      | none =>
        match try_models_loop env (orderedToTry (discoveredNames env)) with
        | some t => t
        | none => fallback_text

/-- The full try order: the explicit model first when configured, then the
ordered discovered candidates. -/
def tryOrder (env : AIEnv) : List (List Char) :=
  env.explicit_model.toList ++ orderedToTry (discoveredNames env)

/-! ## Helper lemmas on the regex search and the extraction pipeline -/

/-- A leftmost match of an anchored matcher: the matcher succeeds at start
position i and fails at every earlier start position. -/
def leftmostMatch (p : List Char → Option (List Char)) (t cap : List Char) : Prop :=
  ∃ i, p (t.drop i) = some cap ∧ ∀ j < i, p (t.drop j) = none

theorem reSearch_eq_some_iff {α : Type} (p : List Char → Option α) (t : List Char) (r : α) :
    reSearch p t = some r ↔
      ∃ i, p (t.drop i) = some r ∧ ∀ j < i, p (t.drop j) = none := by
  induction t with
  | nil =>
    simp only [reSearch, List.drop_nil]
    constructor
    · intro h
      exact ⟨0, h, fun j hj => absurd hj (Nat.not_lt_zero j)⟩
    · rintro ⟨i, hi, -⟩
      exact hi
  | cons c t ih =>
    cases hp : p (c :: t) with
    | some r₁ =>
      simp only [reSearch, hp]
      constructor
      · intro h
        refine ⟨0, ?_, fun j hj => absurd hj (Nat.not_lt_zero j)⟩
        simpa [hp] using h
      · rintro ⟨i, hi, hmin⟩
        cases i with
        | zero => simpa [hp] using hi
        | succ k =>
          have h0 := hmin 0 (Nat.succ_pos k)
          rw [List.drop_zero, hp] at h0
          exact absurd h0 (by simp)
    | none =>
      simp only [reSearch, hp]
      rw [ih]
      constructor
      · rintro ⟨i, hi, hmin⟩
        refine ⟨i + 1, by simpa using hi, ?_⟩
        intro j hj
        cases j with
        | zero => simpa using hp
        | succ k => simpa using hmin k (by omega)
      · rintro ⟨i, hi, hmin⟩
        cases i with
        | zero =>
          rw [List.drop_zero, hp] at hi
          exact absurd hi (by simp)
        | succ k =>
          refine ⟨k, by simpa using hi, ?_⟩
          intro j hj
          simpa using hmin (j + 1) (by omega)

theorem applyQty_some_ok {cap : List Char} {cur v : ℚ}
    (h : applyQty (some cap) cur = .ok v) : floatOfDigitDot cap = some v := by
  simp only [applyQty] at h
  cases hf : floatOfDigitDot cap with
  | none => rw [hf] at h; exact absurd h (by simp)
  | some w => rw [hf] at h; simp only [Except.ok.injEq] at h; rw [h]

theorem applyPriceComma_some_ok {cap : List Char} {cur v : ℚ}
    (h : applyPriceComma (some cap) cur = .ok v) : floatOfCommaDigits cap = some v := by
  simp only [applyPriceComma] at h
  cases hf : floatOfCommaDigits cap with
  | none => rw [hf] at h; exact absurd h (by simp)
  | some w => rw [hf] at h; simp only [Except.ok.injEq] at h; rw [h]

theorem parseMetalsPrices_ok_inv {t : List Char} {m : Metals} {p : Prices}
    (h : parseMetalsPrices t = .ok (m, p)) :
    applyQty (goldQty t) 0 = .ok m.gold_g ∧
    applyPriceComma (goldPrice t) 7000 = .ok p.gold_g ∧
    applyQty (copperQty t) 0 = .ok m.copper_g ∧
    applyPriceDot (copperPrice t) 0.9 = .ok p.copper_g ∧
    applyQty (silverQty t) 0 = .ok m.silver_g ∧
    applyPriceDotReplace (silverPrice t) 90 = .ok p.silver_g := by
  unfold parseMetalsPrices at h
  repeat' split at h
  any_goals exact Except.noConfusion h
  rw [Except.ok.injEq, Prod.mk.injEq] at h
  obtain ⟨hm, hp2⟩ := h
  subst hm
  subst hp2
  simp_all

/-- Unfolding helper for a successful floatOfDigitDot conversion. -/
theorem floatOfDigitDot_eval {s ip fp : List Char}
    (hsplit : splitFirstOn '.' s = (ip, fp))
    (hcond : s.any isDigitChar = true ∧ s.count '.' ≤ 1) :
    floatOfDigitDot s =
      some ((natOfDigits ip : ℚ) + (natOfDigits fp : ℚ) / 10 ^ fp.length) := by
  unfold floatOfDigitDot
  rw [if_pos hcond, hsplit]

/-! ## Evaluation of the C1 end-to-end example -/

def c1Input : List Char :=
  "Gold: 0.05 g, Copper: 12.3 g, Silver: 0.30 g. Prices: Gold ₹7200 per g, Copper ₹0.9 per g, Silver ₹95 per g.".data

theorem c1_searches :
    goldQty c1Input = some "0.05".data ∧ copperQty c1Input = some "12.3".data ∧
    silverQty c1Input = some "0.30".data ∧ goldPrice c1Input = none ∧
    copperPrice c1Input = none ∧ silverPrice c1Input = none := by decide

theorem c1_float_gold : floatOfDigitDot "0.05".data = some (1/20) := by
  rw [floatOfDigitDot_eval (show splitFirstOn '.' "0.05".data = ("0".data, "05".data) from by decide) ⟨by decide, by decide⟩]
  norm_num [show natOfDigits "0".data = 0 from by decide,
    show natOfDigits "05".data = 5 from by decide,
    show ("05".data).length = 2 from by decide]

theorem c1_float_copper : floatOfDigitDot "12.3".data = some (123/10) := by
  rw [floatOfDigitDot_eval (show splitFirstOn '.' "12.3".data = ("12".data, "3".data) from by decide) ⟨by decide, by decide⟩]
  norm_num [show natOfDigits "12".data = 12 from by decide,
    show natOfDigits "3".data = 3 from by decide,
    show ("3".data).length = 1 from by decide]

theorem c1_float_silver : floatOfDigitDot "0.30".data = some (3/10) := by
  rw [floatOfDigitDot_eval (show splitFirstOn '.' "0.30".data = ("0".data, "30".data) from by decide) ⟨by decide, by decide⟩]
  norm_num [show natOfDigits "0".data = 0 from by decide,
    show natOfDigits "30".data = 30 from by decide,
    show ("30".data).length = 2 from by decide]

theorem c1_parse :
    parseMetalsPrices c1Input = .ok (⟨1/20, 123/10, 3/10⟩, ⟨7000, 0.9, 90⟩) := by
  obtain ⟨h1, h2, h3, h4, h5, h6⟩ := c1_searches
  unfold parseMetalsPrices
  rw [h1, h2, h3, h4, h5, h6]
  simp only [applyQty, applyPriceComma, applyPriceDot, applyPriceDotReplace]
  rw [c1_float_gold, c1_float_copper, c1_float_silver]

theorem c1_eval :
    value_estimator c1Input 2 =
      .ok ⟨⟨1/20, 123/10, 3/10⟩, ⟨7000, 0.9, 90⟩, 2, 38807/100, 34926/100⟩ := by
  unfold value_estimator
  rw [c1_parse]
  have hb : rawBase ⟨1/20, 123/10, 3/10⟩ ⟨7000, 0.9, 90⟩ = 38807/100 := by
    norm_num [rawBase]
  have hd : depreciation_factor 2 = 9/10 := by
    unfold depreciation_factor
    rw [max_eq_right (by norm_num)]
    norm_num
  simp only [Except.map, hb, hd]
  have hr1 : round2 ((38807 : ℚ)/100) = 38807/100 := by
    norm_num [round2, round_eq]
  have hr2 : round2 ((38807 : ℚ)/100 * (9/10)) = 34926/100 := by
    norm_num [round2, round_eq]
  rw [hr1, hr2]

/-- C1: the spec example claims baseValue 399.57 and payout 359.61 on this
input; the code leaves all three unit prices at their defaults (the price
regexes contain the corrupted rupee literal, which the clean input does not
contain), giving baseValue 388.07 and payout 349.26. -/
theorem C1_claim_counterexample :
    (value_estimator c1Input 2).map (fun r => r.base_value) ≠ .ok (39957/100) ∧
    (value_estimator c1Input 2).map (fun r => r.estimated_payout) ≠ .ok (35961/100) := by
  rw [c1_eval]
  constructor
  · intro h
    simp only [Except.map, Except.ok.injEq] at h
    norm_num at h
  · intro h
    simp only [Except.map, Except.ok.injEq] at h
    norm_num at h

/-- C1 (amended): on the spec input with ageYears 2 the estimator parses the
quantities 0.05, 12.3, 0.30, keeps the default prices 7000, 0.9, 90, and
produces baseValue 388.07, depreciationFactor 0.9, estimatedPayout 349.26. -/
theorem C1_value_estimator_example :
    value_estimator c1Input 2 =
      .ok ⟨⟨1/20, 123/10, 3/10⟩, ⟨7000, 0.9, 90⟩, 2, 38807/100, 34926/100⟩ ∧
    depreciation_factor 2 = 9/10 := by
  refine ⟨c1_eval, ?_⟩
  unfold depreciation_factor
  rw [max_eq_right (by norm_num)]
  norm_num

/-- C3: the depreciation factor equals max(0.3, 1 - 0.05 age); it is exactly
0.3 for every age at least 14 and 1.0 at age 0; both monetary outputs of the
estimator are the 2-decimal roundings of the base value and of base value
times factor. -/
theorem C3_depreciation_formula (age : ℚ) (h : 0 ≤ age) :
    depreciation_factor age = max 0.3 (1 - 0.05 * age) ∧
    (14 ≤ age → depreciation_factor age = 0.3) ∧
    (age = 0 → depreciation_factor age = 1) ∧
    ∀ t r, value_estimator t age = .ok r →
      r.base_value = round2 (rawBase r.metals r.prices) ∧
      r.estimated_payout = round2 (rawBase r.metals r.prices * depreciation_factor age) := by
  refine ⟨?_, ?_, ?_, ?_⟩
  · unfold depreciation_factor
    ring_nf
  · intro h14
    unfold depreciation_factor
    rw [max_eq_left (by nlinarith)]
  · intro h0
    subst h0
    unfold depreciation_factor
    rw [max_eq_right (by norm_num)]
    norm_num
  · intro t r hr
    unfold value_estimator at hr
    cases hp : parseMetalsPrices t with
    | error e => rw [hp] at hr; exact absurd hr (by simp [Except.map])
    | ok mp =>
      rw [hp] at hr
      simp only [Except.map, Except.ok.injEq] at hr
      subst hr
      exact ⟨rfl, rfl⟩

theorem C3_witness : depreciation_factor 20 = 0.3 ∧ depreciation_factor 0 = 1 :=
  ⟨(C3_depreciation_formula 20 (by norm_num)).2.1 (by norm_num),
   (C3_depreciation_formula 0 (by norm_num)).2.2.1 rfl⟩

/-- C5 (amended): on a successful parse, each metal quantity is 0 when its
quantity pattern has no match and is the float of the captured group of the
leftmost match otherwise; the search is exactly the leftmost anchored match;
each unit price keeps its positive baseline default when its own price
pattern has no match. -/
theorem C5_quantity_extraction (t : List Char) (m : Metals) (p : Prices)
    (h : parseMetalsPrices t = .ok (m, p)) :
    ((goldQty t = none → m.gold_g = 0) ∧
     (∀ cap, goldQty t = some cap → floatOfDigitDot cap = some m.gold_g) ∧
     (∀ cap, goldQty t = some cap ↔ leftmostMatch (matchQtyAt "Gold".data) t cap)) ∧
    ((copperQty t = none → m.copper_g = 0) ∧
     (∀ cap, copperQty t = some cap → floatOfDigitDot cap = some m.copper_g) ∧
     (∀ cap, copperQty t = some cap ↔ leftmostMatch (matchQtyAt "Copper".data) t cap)) ∧
    ((silverQty t = none → m.silver_g = 0) ∧
     (∀ cap, silverQty t = some cap → floatOfDigitDot cap = some m.silver_g) ∧
     (∀ cap, silverQty t = some cap ↔ leftmostMatch (matchQtyAt "Silver".data) t cap)) ∧
    ((goldPrice t = none → p.gold_g = 7000 ∧ 0 < p.gold_g) ∧
     (copperPrice t = none → p.copper_g = 0.9 ∧ 0 < p.copper_g) ∧
     (silverPrice t = none → p.silver_g = 90 ∧ 0 < p.silver_g)) := by
  obtain ⟨hg, hgp, hc, hcp, hs, hsp⟩ := parseMetalsPrices_ok_inv h
  refine ⟨⟨?_, ?_, ?_⟩, ⟨?_, ?_, ?_⟩, ⟨?_, ?_, ?_⟩, ?_, ?_, ?_⟩
  · intro hn; rw [hn] at hg; simpa [applyQty] using hg.symm
  · intro cap hc2; rw [hc2] at hg; exact applyQty_some_ok hg
  · intro cap; simpa [goldQty, leftmostMatch] using
      reSearch_eq_some_iff (matchQtyAt "Gold".data) t cap
  · intro hn; rw [hn] at hc; simpa [applyQty] using hc.symm
  · intro cap hc2; rw [hc2] at hc; exact applyQty_some_ok hc
  · intro cap; simpa [copperQty, leftmostMatch] using
      reSearch_eq_some_iff (matchQtyAt "Copper".data) t cap
  · intro hn; rw [hn] at hs; simpa [applyQty] using hs.symm
  · intro cap hc2; rw [hc2] at hs; exact applyQty_some_ok hs
  · intro cap; simpa [silverQty, leftmostMatch] using
      reSearch_eq_some_iff (matchQtyAt "Silver".data) t cap
  · intro hn; rw [hn] at hgp
    have : p.gold_g = 7000 := by simpa [applyPriceComma] using hgp.symm
    exact ⟨this, by rw [this]; norm_num⟩
  · intro hn; rw [hn] at hcp
    have : p.copper_g = 0.9 := by simpa [applyPriceDot] using hcp.symm
    exact ⟨this, by rw [this]; norm_num⟩
  · intro hn; rw [hn] at hsp
    have : p.silver_g = 90 := by simpa [applyPriceDotReplace] using hsp.symm
    exact ⟨this, by rw [this]; norm_num⟩

theorem C5_witness :
    (⟨0, 0, 0⟩ : Metals).gold_g = 0 ∧ (⟨7000, 0.9, 90⟩ : Prices).gold_g = 7000 := by
  have h := C5_quantity_extraction [] ⟨0, 0, 0⟩ ⟨7000, 0.9, 90⟩ rfl
  exact ⟨h.1.1 rfl, (h.2.2.2.1 rfl).1⟩

def c5MultiInput : List Char := "Gold: 2 g Gold: 3 g".data

def c5PriceInput : List Char := "Gold: â‚¹5".data

theorem c5_multi_parse :
    parseMetalsPrices c5MultiInput = .ok (⟨2, 0, 0⟩, ⟨7000, 0.9, 90⟩) := by
  have h1 : goldQty c5MultiInput = some "2".data := by decide
  have h2 : copperQty c5MultiInput = none := by decide
  have h3 : silverQty c5MultiInput = none := by decide
  have h4 : goldPrice c5MultiInput = none := by decide
  have h5 : copperPrice c5MultiInput = none := by decide
  have h6 : silverPrice c5MultiInput = none := by decide
  have hf : floatOfDigitDot "2".data = some 2 := by
    rw [floatOfDigitDot_eval (show splitFirstOn '.' "2".data = ("2".data, ([] : List Char)) from by decide) ⟨by decide, by decide⟩]
    norm_num [show natOfDigits "2".data = 2 from by decide,
      show natOfDigits ([] : List Char) = 0 from by decide]
  unfold parseMetalsPrices
  rw [h1, h2, h3, h4, h5, h6]
  simp only [applyQty, applyPriceComma, applyPriceDot, applyPriceDotReplace]
  rw [hf]

theorem c5_price_parse :
    parseMetalsPrices c5PriceInput = .ok (⟨0, 0, 0⟩, ⟨5, 0.9, 90⟩) := by
  have h1 : goldQty c5PriceInput = none := by decide
  have h2 : copperQty c5PriceInput = none := by decide
  have h3 : silverQty c5PriceInput = none := by decide
  have h4 : goldPrice c5PriceInput = some "5".data := by decide
  have h5 : copperPrice c5PriceInput = none := by decide
  have h6 : silverPrice c5PriceInput = none := by decide
  have hf : floatOfCommaDigits "5".data = some 5 := by
    unfold floatOfCommaDigits
    rw [show ("5".data).filter (fun c => !(c == ',')) = "5".data from by decide]
    rw [if_neg (by decide)]
    norm_num [show natOfDigits "5".data = 5 from by decide]
  unfold parseMetalsPrices
  rw [h1, h2, h3, h4, h5, h6]
  simp only [applyQty, applyPriceComma, applyPriceDot, applyPriceDotReplace]
  rw [hf]

/-- C5: two refutations of the claim as stated. The text with two matching
substrings (numbers 2 and 3) parses to the number of the leftmost one only,
not of an arbitrary contained match; and a text with no quantity match can
still override the baseline price through the separate price pattern. -/
theorem C5_claim_counterexample :
    (containsSub "Gold: 3 g".data c5MultiInput = true ∧
     reSearch (matchQtyAt "Gold".data) "Gold: 3 g".data = some "3".data ∧
     (parseMetalsPrices c5MultiInput).map (fun mp => mp.1.gold_g) = .ok 2 ∧
     ((2 : ℚ) ≠ 3)) ∧
    ((parseMetalsPrices c5PriceInput).map (fun mp => mp.1.gold_g) = .ok 0 ∧
     (parseMetalsPrices c5PriceInput).map (fun mp => mp.2.gold_g) = .ok 5 ∧
     ((5 : ℚ) ≠ 7000)) := by
  refine ⟨⟨by decide, by decide, ?_, by norm_num⟩, ?_, ?_, by norm_num⟩
  · rw [c5_multi_parse]; rfl
  · rw [c5_price_parse]; rfl
  · rw [c5_price_parse]; rfl

/-! ## C9: thousands separators -/

def c9GoldInput : List Char := "Gold: â‚¹7,200".data

def c9CopperInput : List Char := "Copper: â‚¹1,100".data

def c9SilverInput : List Char := "Silver: â‚¹9,500".data

theorem c9_gold_parse :
    parseMetalsPrices c9GoldInput = .ok (⟨0, 0, 0⟩, ⟨7200, 0.9, 90⟩) := by
  have h1 : goldQty c9GoldInput = none := by decide
  have h2 : copperQty c9GoldInput = none := by decide
  have h3 : silverQty c9GoldInput = none := by decide
  have h4 : goldPrice c9GoldInput = some "7,200".data := by decide
  have h5 : copperPrice c9GoldInput = none := by decide
  have h6 : silverPrice c9GoldInput = none := by decide
  have hf : floatOfCommaDigits "7,200".data = some 7200 := by
    unfold floatOfCommaDigits
    rw [show ("7,200".data).filter (fun c => !(c == ',')) = "7200".data from by decide]
    rw [if_neg (by decide)]
    norm_num [show natOfDigits "7200".data = 7200 from by decide]
  unfold parseMetalsPrices
  rw [h1, h2, h3, h4, h5, h6]
  simp only [applyQty, applyPriceComma, applyPriceDot, applyPriceDotReplace]
  rw [hf]

theorem c9_copper_parse :
    parseMetalsPrices c9CopperInput = .ok (⟨0, 0, 0⟩, ⟨7000, 1, 90⟩) := by
  have h1 : goldQty c9CopperInput = none := by decide
  have h2 : copperQty c9CopperInput = none := by decide
  have h3 : silverQty c9CopperInput = none := by decide
  have h4 : goldPrice c9CopperInput = none := by decide
  have h5 : copperPrice c9CopperInput = some "1".data := by decide
  have h6 : silverPrice c9CopperInput = none := by decide
  have hf : floatOfDigitDot "1".data = some 1 := by
    rw [floatOfDigitDot_eval (show splitFirstOn '.' "1".data = ("1".data, ([] : List Char)) from by decide) ⟨by decide, by decide⟩]
    norm_num [show natOfDigits "1".data = 1 from by decide,
      show natOfDigits ([] : List Char) = 0 from by decide]
  unfold parseMetalsPrices
  rw [h1, h2, h3, h4, h5, h6]
  simp only [applyQty, applyPriceComma, applyPriceDot, applyPriceDotReplace]
  rw [hf]

theorem c9_silver_parse :
    parseMetalsPrices c9SilverInput = .ok (⟨0, 0, 0⟩, ⟨7000, 0.9, 9⟩) := by
  have h1 : goldQty c9SilverInput = none := by decide
  have h2 : copperQty c9SilverInput = none := by decide
  have h3 : silverQty c9SilverInput = none := by decide
  have h4 : goldPrice c9SilverInput = none := by decide
  have h5 : copperPrice c9SilverInput = none := by decide
  have h6 : silverPrice c9SilverInput = some "9".data := by decide
  have hf : floatOfDigitDot "9".data = some 9 := by
    rw [floatOfDigitDot_eval (show splitFirstOn '.' "9".data = ("9".data, ([] : List Char)) from by decide) ⟨by decide, by decide⟩]
    norm_num [show natOfDigits "9".data = 9 from by decide,
      show natOfDigits ([] : List Char) = 0 from by decide]
  unfold parseMetalsPrices
  rw [h1, h2, h3, h4, h5, h6]
  simp only [applyQty, applyPriceComma, applyPriceDot, applyPriceDotReplace]
  rw [show List.filter (fun c => !(c == ',')) "9".data = "9".data from by decide, hf]

/-- C9 (amended): only the gold price pattern admits thousands separators
(its capture class has the comma, stripped before conversion); the copper
and silver price captures stop at the first comma, so only the digits before
the separator are converted. -/
theorem C9_separator_normalization :
    (∀ t m p cap, parseMetalsPrices t = .ok (m, p) → goldPrice t = some cap →
       p.gold_g = (natOfDigits (cap.filter (fun c => !(c == ','))) : ℚ)) ∧
    parseMetalsPrices c9GoldInput = .ok (⟨0, 0, 0⟩, ⟨7200, 0.9, 90⟩) ∧
    parseMetalsPrices c9CopperInput = .ok (⟨0, 0, 0⟩, ⟨7000, 1, 90⟩) ∧
    parseMetalsPrices c9SilverInput = .ok (⟨0, 0, 0⟩, ⟨7000, 0.9, 9⟩) := by
  refine ⟨?_, c9_gold_parse, c9_copper_parse, c9_silver_parse⟩
  intro t m p cap hok hcap
  obtain ⟨-, hgp, -, -, -, -⟩ := parseMetalsPrices_ok_inv hok
  rw [hcap] at hgp
  have := applyPriceComma_some_ok hgp
  unfold floatOfCommaDigits at this
  by_cases hd : cap.filter (fun c => !(c == ',')) = []
  · rw [if_pos hd] at this; exact absurd this (by simp)
  · rw [if_neg hd] at this
    simp only [Option.some.injEq] at this
    exact this.symm

theorem C9_witness :
    (⟨7200, 0.9, 90⟩ : Prices).gold_g =
      (natOfDigits (("7,200".data).filter (fun c => !(c == ','))) : ℚ) :=
  (C9_separator_normalization).1 c9GoldInput ⟨0, 0, 0⟩ ⟨7200, 0.9, 90⟩ "7,200".data
    c9_gold_parse (by decide)

/-- C9: the claim asserts separator normalization for silver (and copper)
alike; on the silver price written 9,500 the code extracts 9, not 9500. -/
theorem C9_claim_counterexample :
    (parseMetalsPrices c9SilverInput).map (fun mp => mp.2.silver_g) = .ok 9 ∧
    ((9 : ℚ) ≠ 9500) := by
  constructor
  · rw [c9_silver_parse]; rfl
  · norm_num

/-! ## C2: the quiz always returns exactly five well-shaped questions -/

theorem quizStep_fst_length (st : List QuizQuestion × QuizQuestion) (ln : List Char) :
    (quizStep st ln).1.length ≤ st.1.length + 1 := by
  simp only [quizStep]
  by_cases h1 : startsWithAny numMarkers (upperStr ln) = true
  · rw [if_pos h1]
    by_cases h2 : st.2.q ≠ []
    · simp [h2, List.length_append]
    · simp [h2]
  · rw [if_neg h1]
    by_cases h2 : startsWithAny optColonMarkers (upperStr ln) = true ∨
        parenOptionTest (upperStr ln) = true
    · rw [if_pos h2]
      simp
    · rw [if_neg h2]
      by_cases h3 : startsWithAny ansMarkers (upperStr ln) = true
      · rw [if_pos h3]
        cases hf : List.find? (fun ch => (upperStr ln).contains ch) ['A', 'B', 'C', 'D'] <;>
          simp [hf]
      · rw [if_neg h3]
        simp

theorem quizLoop_fst_length (lines : List (List Char))
    (st : List QuizQuestion × QuizQuestion) (h : st.1.length ≤ 5) :
    (quizLoop lines st).1.length ≤ 5 := by
  induction lines generalizing st with
  | nil => exact h
  | cons ln rest ih =>
    unfold quizLoop
    split
    · exact h
    · refine ih _ ?_
      have hs := quizStep_fst_length st ln
      omega

theorem padTemplatesFrom_length (fuel n : Nat) :
    (padTemplatesFrom fuel n).length = min fuel (5 - n) := by
  induction fuel generalizing n with
  | zero => simp [padTemplatesFrom]
  | succ k ih =>
    unfold padTemplatesFrom
    split
    · simp only [List.length_cons, ih]
      omega
    · simp only [List.length_nil]
      omega

theorem padTemplatesFrom_mem {fuel n : Nat} {q : QuizQuestion}
    (h : q ∈ padTemplatesFrom fuel n) : ∃ k, q = templateQuestion k := by
  induction fuel generalizing n with
  | zero => simp [padTemplatesFrom] at h
  | succ k ih =>
    unfold padTemplatesFrom at h
    split at h
    · rcases List.mem_cons.mp h with h | h
      · exact ⟨n + 1, h⟩
      · exact ih h
    · simp at h

theorem validQuestion_spec {q : QuizQuestion} (h : validQuestion q = true) :
    q.options.length = 4 ∧ ∃ c, q.answer = some c ∧ c ∈ ['A', 'B', 'C', 'D'] := by
  unfold validQuestion at h
  cases ha : q.answer with
  | none => rw [ha] at h; simp at h
  | some c =>
    rw [ha] at h
    simp only [Bool.and_eq_true, beq_iff_eq] at h
    exact ⟨h.1.2, c, rfl, by simpa using h.2⟩

/-- Every option of a question satisfies the label predicate. -/
def labelsOk (q : QuizQuestion) : Prop :=
  ∀ o ∈ q.options, o.label ∈ ['A', 'B', 'C', 'D']

theorem headD_eq_of_isPrefixOf {c : Char} {cs l : List Char} {d : Char}
    (h : (c :: cs).isPrefixOf l = true) : l.headD d = c := by
  cases l with
  | nil => simp [List.isPrefixOf] at h
  | cons x xs =>
    simp only [List.isPrefixOf, Bool.and_eq_true, beq_iff_eq] at h
    rw [List.headD_cons]
    exact h.1.symm

/-- A line accepted by the option-line gate has its uppercased first
character in ABCD: the colon markers force it, and the parenthesis test
checks it directly. -/
theorem optionLabel_mem {lnu : List Char}
    (h : startsWithAny optColonMarkers lnu = true ∨ parenOptionTest lnu = true) :
    lnu.headD 'A' ∈ ['A', 'B', 'C', 'D'] := by
  rcases h with h | h
  · unfold startsWithAny optColonMarkers at h
    rw [List.any_eq_true] at h
    obtain ⟨m, hm, hpre⟩ := h
    simp only [List.map_cons, List.map_nil, List.mem_cons, List.not_mem_nil, or_false] at hm
    rcases hm with rfl | rfl | rfl | rfl
    · rw [headD_eq_of_isPrefixOf (show (('A' : Char) :: [':']).isPrefixOf lnu = true from hpre)]
      decide
    · rw [headD_eq_of_isPrefixOf (show (('B' : Char) :: [':']).isPrefixOf lnu = true from hpre)]
      decide
    · rw [headD_eq_of_isPrefixOf (show (('C' : Char) :: [':']).isPrefixOf lnu = true from hpre)]
      decide
    · rw [headD_eq_of_isPrefixOf (show (('D' : Char) :: [':']).isPrefixOf lnu = true from hpre)]
      decide
  · rcases lnu with _ | ⟨a, _ | ⟨b, _ | ⟨c3, rest⟩⟩⟩
    · simp [parenOptionTest] at h
    · simp [parenOptionTest] at h
    · simp [parenOptionTest] at h
    · simp only [parenOptionTest, decide_eq_true_eq] at h
      rw [List.headD_cons]
      exact h.2

theorem quizStep_labelsOk (st : List QuizQuestion × QuizQuestion) (ln : List Char)
    (h1 : ∀ q ∈ st.1, labelsOk q) (h2 : labelsOk st.2) :
    (∀ q ∈ (quizStep st ln).1, labelsOk q) ∧ labelsOk (quizStep st ln).2 := by
  simp only [quizStep]
  by_cases hm : startsWithAny numMarkers (upperStr ln) = true
  · rw [if_pos hm]
    constructor
    · intro q hq
      by_cases hc : st.2.q ≠ []
      · rw [if_pos hc] at hq
        replace hq : q ∈ st.1 ++ [st.2] := hq
        rcases List.mem_append.mp hq with hq | hq
        · exact h1 q hq
        · rw [List.mem_singleton.mp hq]
          exact h2
      · rw [if_neg hc] at hq
        exact h1 q hq
    · intro o ho
      simp at ho
  · rw [if_neg hm]
    by_cases ho2 : startsWithAny optColonMarkers (upperStr ln) = true ∨
        parenOptionTest (upperStr ln) = true
    · rw [if_pos ho2]
      refine ⟨h1, ?_⟩
      intro o ho
      replace ho : o ∈ st.2.options ++
          [⟨(upperStr ln).headD 'A',
            if (ln.take 3).contains ':' then stripStr (ln.drop 2)
            else stripStr (ln.drop 3)⟩] := ho
      rcases List.mem_append.mp ho with ho | ho
      · exact h2 o ho
      · rw [List.mem_singleton.mp ho]
        exact optionLabel_mem ho2
    · rw [if_neg ho2]
      by_cases ha : startsWithAny ansMarkers (upperStr ln) = true
      · rw [if_pos ha]
        cases hf : List.find? (fun ch => (upperStr ln).contains ch) ['A', 'B', 'C', 'D'] with
        | some ch => exact ⟨h1, h2⟩
        | none => exact ⟨h1, h2⟩
      · rw [if_neg ha]
        exact ⟨h1, h2⟩

theorem quizLoop_labelsOk (lines : List (List Char))
    (st : List QuizQuestion × QuizQuestion)
    (h1 : ∀ q ∈ st.1, labelsOk q) (h2 : labelsOk st.2) :
    (∀ q ∈ (quizLoop lines st).1, labelsOk q) ∧ labelsOk (quizLoop lines st).2 := by
  induction lines generalizing st with
  | nil => exact ⟨h1, h2⟩
  | cons ln rest ih =>
    unfold quizLoop
    split
    · exact ⟨h1, h2⟩
    · obtain ⟨g1, g2⟩ := quizStep_labelsOk st ln h1 h2
      exact ih _ g1 g2

theorem quizCommit_labelsOk (st : List QuizQuestion × QuizQuestion)
    (h1 : ∀ q ∈ st.1, labelsOk q) (h2 : labelsOk st.2) :
    ∀ q ∈ quizCommit st, labelsOk q := by
  intro q hq
  unfold quizCommit at hq
  split at hq
  · rcases List.mem_append.mp hq with hq | hq
    · exact h1 q hq
    · rw [List.mem_singleton.mp hq]
      exact h2
  · exact h1 q hq

theorem templateQuestion_labelsOk (k : Nat) : labelsOk (templateQuestion k) := by
  intro o ho
  simp only [templateQuestion] at ho
  fin_cases ho <;> decide

/-- C2 (amended): for every raw provider text the quiz view yields exactly 5
questions, each with exactly 4 options whose labels lie in ABCD (though not
necessarily distinct) and an answer label in ABCD; failing questions are
discarded and the list is padded with the fixed template questions. -/
theorem C2_quiz_always_five (raw : List Char) :
    (quizQuestions raw).length = 5 ∧
    ∀ q ∈ quizQuestions raw, q.options.length = 4 ∧
      (∀ o ∈ q.options, o.label ∈ ['A', 'B', 'C', 'D']) ∧
      ∃ c, q.answer = some c ∧ c ∈ ['A', 'B', 'C', 'D'] := by
  have hloop := quizLoop_fst_length (quizLines raw) ([], ⟨[], [], none⟩) (by simp)
  have hcommit : (quizCommit (quizLoop (quizLines raw) ([], ⟨[], [], none⟩))).length ≤ 5 := by
    unfold quizCommit
    split
    · rename_i hc
      simp only [List.length_append, List.length_singleton]
      omega
    · exact hloop
  have hfilter :
      ((quizCommit (quizLoop (quizLines raw) ([], ⟨[], [], none⟩))).filter
        validQuestion).length ≤ 5 :=
    le_trans (List.length_filter_le _ _) hcommit
  constructor
  · unfold quizQuestions quizAssemble
    rw [List.length_append, padTemplatesFrom_length, Nat.min_eq_right (by omega)]
    omega
  · intro q hq
    unfold quizQuestions quizAssemble at hq
    obtain ⟨g1, g2⟩ := quizLoop_labelsOk (quizLines raw) ([], ⟨[], [], none⟩)
      (by intro q2 hq2; exact absurd hq2 (List.not_mem_nil q2))
      (by intro o ho; exact absurd ho (List.not_mem_nil o))
    rcases List.mem_append.mp hq with hq | hq
    · have hv := validQuestion_spec (List.of_mem_filter hq)
      have hlab := quizCommit_labelsOk _ g1 g2 q (List.mem_of_mem_filter hq)
      exact ⟨hv.1, hlab, hv.2⟩
    · obtain ⟨k, rfl⟩ := padTemplatesFrom_mem hq
      exact ⟨rfl, templateQuestion_labelsOk k, 'C', rfl, by simp⟩

theorem C2_witness : (quizQuestions "".data).length = 5 :=
  (C2_quiz_always_five "".data).1

def c2Input : List Char :=
  "1. Which?\nA: one\nA: two\nA: three\nA: four\nANSWER: A".data

/-- C2: the claim requires the four option labels of every returned question
to be distinct; on this raw text the first returned question carries the
labels A, A, A, A and still passes the filter. -/
theorem C2_claim_counterexample :
    ((quizQuestions c2Input).map (fun q => q.options.map (fun o => o.label))).head? =
      some ['A', 'A', 'A', 'A'] ∧
    ¬ (['A', 'A', 'A', 'A'] : List Char).Nodup := by decide

/-! ## C4: the decision parse of the recommendation marker -/

theorem isPrefixOf_map {f : Char → Char} {n h : List Char}
    (hp : n.isPrefixOf h = true) : (n.map f).isPrefixOf (h.map f) = true := by
  rw [ List.isPrefixOf_iff_prefix] at hp ⊢
  exact hp.map f

theorem containsSub_eq_true_iff (n h : List Char) : containsSub n h = true ↔ n <:+: h := by
  induction h with
  | nil =>
    simp only [containsSub, List.isPrefixOf_iff_prefix]
    constructor
    · exact fun hp => hp.isInfix
    · intro hi
      have hn : n = [] := by
        have hl := hi.length_le
        simp only [List.length_nil, Nat.le_zero] at hl
        exact List.eq_nil_of_length_eq_zero hl
      simp [hn]
  | cons c t ih =>
    simp only [containsSub, Bool.or_eq_true, List.isPrefixOf_iff_prefix, ih]
    constructor
    · rintro (hp | hi)
      · exact hp.isInfix
      · exact hi.trans (List.suffix_cons c t).isInfix
    · intro hi
      rcases List.infix_cons_iff.mp hi with hp | hi
      · exact Or.inl hp
      · exact Or.inr hi

theorem containsSub_map (f : Char → Char) {n h : List Char}
    (hc : containsSub n h = true) : containsSub (n.map f) (h.map f) = true := by
  rw [containsSub_eq_true_iff] at hc ⊢
  exact hc.map f

theorem splitOnceStr_some_occurs {sep t : List Char} {p : List Char × List Char}
    (h : splitOnceStr sep t = some p) : sep <:+: t := by
  induction t generalizing p with
  | nil =>
    unfold splitOnceStr at h
    split at h
    · simp_all
    · exact Option.noConfusion h
  | cons c t ih =>
    unfold splitOnceStr at h
    split at h
    · exact ( List.isPrefixOf_iff_prefix.mp (by assumption)).isInfix
    · cases hs : splitOnceStr sep t with
      | none => rw [hs] at h; exact Option.noConfusion h
      | some q => exact (ih hs).trans (List.suffix_cons c t).isInfix

theorem upperStr_recMarker : upperStr recMarker = recMarker := by decide

/-- C4 (amended): when the exact-case marker occurs, the category is Reuse
iff the lowercased first line after the marker contains reuse, and the
rationale is the trimmed remainder after the marker, label line included;
when the marker occurs only case-insensitively the extraction fails and the
default Recycle with the full text is returned; without the marker the
fallback scans the lowercased text start and its first 50 characters only. -/
theorem C4_decision_extraction :
    (∀ text before after : List Char,
      splitOnceStr recMarker text = some (before, after) →
        (decisionParse text).2 = stripStr after ∧
        (containsSub "reuse".data (lowerStr (stripStr (takeUntil '\n' after))) = true →
          (decisionParse text).1 = "Reuse".data) ∧
        (containsSub "reuse".data (lowerStr (stripStr (takeUntil '\n' after))) = false →
          (decisionParse text).1 = "Recycle".data)) ∧
    (∀ text : List Char, containsSub recMarker (upperStr text) = true →
      splitOnceStr recMarker text = none →
        decisionParse text = ("Recycle".data, text)) ∧
    (∀ text : List Char, containsSub recMarker (upperStr text) = false →
      (("reuse".data.isPrefixOf (lowerStr text) = true ∨
          containsSub " reuse ".data ((lowerStr text).take 50) = true) →
        decisionParse text = ("Reuse".data, text)) ∧
      ("reuse".data.isPrefixOf (lowerStr text) = false →
        containsSub " reuse ".data ((lowerStr text).take 50) = false →
        decisionParse text = ("Recycle".data, text))) := by
  refine ⟨?_, ?_, ?_⟩
  · intro text before after hsplit
    have hinf : recMarker <:+: text := splitOnceStr_some_occurs hsplit
    have hcont : containsSub recMarker (upperStr text) = true := by
      have h2 := containsSub_map upperChar
        ((containsSub_eq_true_iff recMarker text).mpr hinf)
      rw [show List.map upperChar recMarker = recMarker from upperStr_recMarker] at h2
      exact h2
    unfold decisionParse
    rw [if_pos hcont, hsplit]
    refine ⟨rfl, ?_, ?_⟩
    · intro hr
      show (if containsSub "reuse".data (lowerStr (stripStr (takeUntil '\n' after))) = true
          then "Reuse".data else "Recycle".data) = "Reuse".data
      rw [if_pos hr]
    · intro hr
      show (if containsSub "reuse".data (lowerStr (stripStr (takeUntil '\n' after))) = true
          then "Reuse".data else "Recycle".data) = "Recycle".data
      rw [if_neg (by simp [hr])]
  · intro text hcont hnone
    unfold decisionParse
    rw [if_pos hcont, hnone]
  · intro text hcont
    constructor
    · intro hor
      unfold decisionParse
      rw [if_neg (by simp [hcont]), if_pos hor]
    · intro h1 h2
      unfold decisionParse
      rw [if_neg (by simp [hcont]), if_neg (by simp [h1, h2])]

theorem C4_witness :
    (decisionParse "RECOMMENDATION: Reuse\nGood.".data).1 = "Reuse".data ∧
    (decisionParse "RECOMMENDATION: Reuse\nGood.".data).2 = stripStr " Reuse\nGood.".data := by
  have h := C4_decision_extraction.1 "RECOMMENDATION: Reuse\nGood.".data []
    " Reuse\nGood.".data (by decide)
  exact ⟨h.2.1 (by decide), h.1⟩

def c4MixedInput : List Char := "Recommendation: Reuse this phone.".data

def c4ExactInput : List Char := "RECOMMENDATION: Reuse\nIt still works.".data

def c4FallbackInput : List Char :=
  "This device is quite old and visibly damaged but a careful refurbisher could attempt a reuse plan.".data

/-- C4: three refutations of the claim as stated. A marker present only in
mixed case yields Recycle, not Reuse; with the exact marker the rationale
keeps the label line instead of starting after the label; and a reuse
keyword inside the first 100 but beyond the first 50 characters is not seen
by the fallback scan. -/
theorem C4_claim_counterexample :
    (containsSub recMarker (upperStr c4MixedInput) = true ∧
     decisionParse c4MixedInput = ("Recycle".data, c4MixedInput)) ∧
    (decisionParse c4ExactInput = ("Reuse".data, "Reuse\nIt still works.".data) ∧
     "Reuse\nIt still works.".data ≠ "It still works.".data) ∧
    (containsSub " reuse ".data ((lowerStr c4FallbackInput).take 100) = true ∧
     containsSub " reuse ".data ((lowerStr c4FallbackInput).take 50) = false ∧
     decisionParse c4FallbackInput = ("Recycle".data, c4FallbackInput)) := by decide

/-! ## C6 and C7: bounds filtering and provider dispatch -/

theorem nearbyEntry_within {eu : Bool} {b : MapBounds} {p : GPlace} {r : GeoResult}
    (h : nearbyEntry eu b p = some r) :
    within_bounds b r.latitude r.longitude = true := by
  unfold nearbyEntry at h
  repeat' split at h
  any_goals exact Option.noConfusion h
  injection h with h2
  subst h2
  simp_all

theorem textEntry_within {eu : Bool} {b : MapBounds} {p : GPlace} {r : GeoResult}
    (h : textEntry eu b p = some r) :
    within_bounds b r.latitude r.longitude = true := by
  unfold textEntry at h
  repeat' split at h
  any_goals exact Option.noConfusion h
  injection h with h2
  subst h2
  simp_all

theorem textFallbackEntry_within {b : MapBounds} {p : GPlace} {r : GeoResult}
    (h : textFallbackEntry b p = some r) :
    within_bounds b r.latitude r.longitude = true := by
  unfold textFallbackEntry at h
  repeat' split at h
  any_goals exact Option.noConfusion h
  injection h with h2
  subst h2
  simp_all

theorem googleSearchPhase_within (cfg : GeoConfig) (net : GeoNetwork) :
    ∀ r ∈ (googleSearchPhase cfg net).centers,
      within_bounds cfg.bounds r.latitude r.longitude = true := by
  intro r hr
  unfold googleSearchPhase at hr
  by_cases h1 : net.nearbyOk = true
  · rw [if_pos h1] at hr
    by_cases h2 : (net.nearbyPlaces.filterMap
        (nearbyEntry (excludeUsFlag cfg) cfg.bounds)).isEmpty = true
    · rw [if_pos h2] at hr
      by_cases h3 : net.textOk = true
      · rw [if_pos h3] at hr
        replace hr : r ∈ net.textPlaces.filterMap
            (textEntry (excludeUsFlag cfg) cfg.bounds) := hr
        obtain ⟨p, -, he⟩ := List.mem_filterMap.mp hr
        exact textEntry_within he
      · rw [if_neg h3] at hr
        exact absurd hr (List.not_mem_nil r)
    · rw [if_neg h2] at hr
      replace hr : r ∈ net.nearbyPlaces.filterMap
          (nearbyEntry (excludeUsFlag cfg) cfg.bounds) := hr
      obtain ⟨p, -, he⟩ := List.mem_filterMap.mp hr
      exact nearbyEntry_within he
  · rw [if_neg h1] at hr
    by_cases h3 : net.textOk = true
    · rw [if_pos h3] at hr
      replace hr : r ∈ net.textPlaces.filterMap (textFallbackEntry cfg.bounds) := hr
      obtain ⟨p, -, he⟩ := List.mem_filterMap.mp hr
      exact textFallbackEntry_within he
    · rw [if_neg h3] at hr
      exact absurd hr (List.not_mem_nil r)

theorem googleBranch_within (cfg : GeoConfig) (net : GeoNetwork) :
    ∀ r ∈ (googleBranch cfg net).centers,
      within_bounds cfg.bounds r.latitude r.longitude = true := by
  intro r hr
  unfold googleBranch at hr
  by_cases h1 : net.googleRaises = true
  · rw [if_pos h1] at hr
    exact absurd hr (List.not_mem_nil r)
  · rw [if_neg h1] at hr
    by_cases h2 : cfg.q ≠ [] ∧ (cfg.lat.isNone = true ∨ cfg.lng.isNone = true)
    · rw [if_pos h2] at hr
      cases hgr : geocodeResult net with
      | some c =>
        rw [hgr] at hr
        exact googleSearchPhase_within cfg net r hr
      | none =>
        rw [hgr] at hr
        cases hlat : cfg.lat with
        | none =>
          rw [hlat] at hr
          cases hlng : cfg.lng <;> rw [hlng] at hr <;>
            exact absurd hr (List.not_mem_nil r)
        | some a =>
          rw [hlat] at hr
          cases hlng : cfg.lng with
          | none =>
            rw [hlng] at hr
            exact absurd hr (List.not_mem_nil r)
          | some b =>
            rw [hlng] at hr
            exact googleSearchPhase_within cfg net r hr
    · rw [if_neg h2] at hr
      exact googleSearchPhase_within cfg net r hr

/-- C6 (amended): on the Google provider branch every returned center lies
inside the supplied bounding box, boundary included; a place sitting exactly
on the southwest corner passes the nearby filter. The Yelp branch applies no
bounds filter (see the counterexample). -/
theorem C6_google_bounds (cfg : GeoConfig) (net : GeoNetwork) (sa sb na nb : ℚ)
    (hk : cfg.gmapsKey.isSome = true)
    (hb : cfg.bounds = ⟨some sa, some sb, some na, some nb⟩) :
    (∀ r ∈ (centers_nearby_api cfg net).centers,
       sa ≤ r.latitude ∧ r.latitude ≤ na ∧ sb ≤ r.longitude ∧ r.longitude ≤ nb) ∧
    (∀ p : GPlace, p.lat = some sa → p.lng = some sb → sa ≤ na → sb ≤ nb →
       ∃ r, nearbyEntry false cfg.bounds p = some r ∧
         r.latitude = sa ∧ r.longitude = sb) := by
  constructor
  · intro r hr
    have hg : (centers_nearby_api cfg net).centers = (googleBranch cfg net).centers := by
      unfold centers_nearby_api
      rw [if_pos hk]
    rw [hg] at hr
    have hw := googleBranch_within cfg net r hr
    rw [hb] at hw
    simp only [within_bounds, decide_eq_true_eq] at hw
    exact ⟨hw.1.1, hw.1.2, hw.2.1, hw.2.2⟩
  · intro p hla hlb hna hnb
    refine ⟨⟨gName p, gAddr p, sa, sb,
      "google_places_new_nearby".data, p.types, p.rating, p.userRatingCount,
      p.phone, p.website⟩, ?_, rfl, rfl⟩
    have hwb : within_bounds cfg.bounds sa sb = true := by
      rw [hb]
      simp only [within_bounds, decide_eq_true_eq]
      exact ⟨⟨le_refl sa, hna⟩, le_refl sb, hnb⟩
    simp only [nearbyEntry, hla, hlb, hwb, Bool.false_eq_true, false_and, if_false,
      Bool.true_eq_false]

def c6WitnessCfg : GeoConfig :=
  { q := [], country := [], lat := some 0, lng := some 0, radius_km := 10
    bounds := ⟨some 0, some 0, some 1, some 1⟩
    gmapsKey := some "k".data, yelpKey := none }

def c6WitnessNet : GeoNetwork :=
  { googleRaises := false, geocodeOk := false, geocodePlaces := []
    nearbyOk := true
    nearbyPlaces := [⟨some "Center".data, some "Addr".data, some 0, some 0, [],
      none, none, none, none⟩]
    textOk := false, textPlaces := [], yelpOk := false, yelpBusinesses := [] }

theorem C6_witness :
    (∀ r ∈ (centers_nearby_api c6WitnessCfg c6WitnessNet).centers,
       0 ≤ r.latitude ∧ r.latitude ≤ 1 ∧ 0 ≤ r.longitude ∧ r.longitude ≤ 1) ∧
    ∃ r, nearbyEntry false c6WitnessCfg.bounds
        (⟨some "Center".data, some "Addr".data, some 0, some 0, [],
          none, none, none, none⟩ : GPlace) = some r ∧
      r.latitude = 0 ∧ r.longitude = 0 := by
  have h := C6_google_bounds c6WitnessCfg c6WitnessNet 0 0 1 1 rfl rfl
  exact ⟨h.1, h.2 _ rfl rfl (by norm_num) (by norm_num)⟩

def c6YelpCfg : GeoConfig :=
  { q := [], country := [], lat := some 0, lng := some 0, radius_km := 10
    bounds := ⟨some 0, some 0, some 1, some 1⟩
    gmapsKey := none, yelpKey := some "k".data }

def c6YelpNet : GeoNetwork :=
  { googleRaises := false, geocodeOk := false, geocodePlaces := []
    nearbyOk := false, nearbyPlaces := [], textOk := false, textPlaces := []
    yelpOk := true
    yelpBusinesses := [⟨some "Shop".data, [], some 10, some 10⟩] }

/-- C6: the claim covers every provider path; on the Yelp path a business at
latitude and longitude 10 is returned although the supplied box ends at 1 —
the Yelp normalisation never consults the bounds. -/
theorem C6_claim_counterexample :
    (centers_nearby_api c6YelpCfg c6YelpNet).centers.map (fun r => r.latitude) = [10] ∧
    ¬ ((10 : ℚ) ≤ 1) := by
  constructor
  · norm_num [centers_nearby_api, c6YelpCfg, c6YelpNet, yelpEntry, yName, yAddr,
      orDefaultStr, joinSep, List.filterMap_cons, List.filterMap_nil]
  · norm_num

/-- C7: with neither provider credential configured the view answers the
no-provider error with status 412 and no center entries. -/
theorem C7_no_provider (cfg : GeoConfig) (net : GeoNetwork)
    (hg : cfg.gmapsKey = none) (hy : cfg.yelpKey = none) :
    centers_nearby_api cfg net = ⟨[], some noProviderMsg, 412⟩ := by
  unfold centers_nearby_api
  rw [hg, hy]
  rfl

def c7Cfg : GeoConfig :=
  { q := [], country := [], lat := some 0, lng := some 0, radius_km := 10
    bounds := ⟨none, none, none, none⟩, gmapsKey := none, yelpKey := none }

def c7Net : GeoNetwork :=
  { googleRaises := false, geocodeOk := false, geocodePlaces := []
    nearbyOk := false, nearbyPlaces := [], textOk := false, textPlaces := []
    yelpOk := false, yelpBusinesses := [] }

theorem C7_witness :
    centers_nearby_api c7Cfg c7Net = ⟨[], some noProviderMsg, 412⟩ :=
  C7_no_provider c7Cfg c7Net rfl rfl

/-! ## C10: Yelp truthiness of coordinates -/

/-- C10: on the Yelp fallback path the returned centers are exactly the
filterMap of the truthiness normalisation; a business whose latitude or
longitude is exactly 0 is dropped although both coordinates are present,
and every business with two non-zero coordinates is retained. -/
theorem C10_yelp_truthiness (cfg : GeoConfig) (net : GeoNetwork)
    (hg : cfg.gmapsKey = none) (hy : cfg.yelpKey.isSome = true) (hok : net.yelpOk = true) :
    (centers_nearby_api cfg net).centers = net.yelpBusinesses.filterMap yelpEntry ∧
    (∀ bz : YelpBusiness, (bz.lat = some 0 ∨ bz.lng = some 0) → yelpEntry bz = none) ∧
    (∀ bz : YelpBusiness, ∀ la ln : ℚ, bz.lat = some la → bz.lng = some ln →
      la ≠ 0 → ln ≠ 0 → bz ∈ net.yelpBusinesses →
      ∃ r, yelpEntry bz = some r ∧ r ∈ (centers_nearby_api cfg net).centers ∧
        r.latitude = la ∧ r.longitude = ln) := by
  have hc : (centers_nearby_api cfg net).centers = net.yelpBusinesses.filterMap yelpEntry := by
    unfold centers_nearby_api
    rw [hg]
    simp [hy, hok]
  refine ⟨hc, ?_, ?_⟩
  · intro bz hz
    unfold yelpEntry
    rcases hz with hz | hz
    · rw [hz]
      cases hlng : bz.lng <;> simp
    · rw [hz]
      cases hlat : bz.lat <;> simp
  · intro bz la ln hla hln hla0 hln0 hmem
    refine ⟨⟨yName bz, yAddr bz, la, ln, "yelp".data,
      [], none, none, none, none⟩, ?he, ?_, rfl, rfl⟩
    case he =>
      simp only [yelpEntry, hla, hln]
      rw [if_pos ⟨hla0, hln0⟩]
    rw [hc]
    refine List.mem_filterMap.mpr ⟨bz, hmem, ?_⟩
    simp only [yelpEntry, hla, hln]
    rw [if_pos ⟨hla0, hln0⟩]

def c10Biz : YelpBusiness := ⟨some "Shop".data, ["12 Road".data], some 5, some 6⟩

def c10Cfg : GeoConfig :=
  { q := [], country := [], lat := some 0, lng := some 0, radius_km := 10
    bounds := ⟨none, none, none, none⟩, gmapsKey := none, yelpKey := some "k".data }

def c10Net : GeoNetwork :=
  { googleRaises := false, geocodeOk := false, geocodePlaces := []
    nearbyOk := false, nearbyPlaces := [], textOk := false, textPlaces := []
    yelpOk := true, yelpBusinesses := [c10Biz, ⟨some "Zero".data, [], some 0, some 3⟩] }

theorem C10_witness :
    yelpEntry (⟨some "Zero".data, [], some 0, some 3⟩ : YelpBusiness) = none ∧
    ∃ r, yelpEntry c10Biz = some r ∧ r ∈ (centers_nearby_api c10Cfg c10Net).centers ∧
      r.latitude = 5 ∧ r.longitude = 6 := by
  have h := C10_yelp_truthiness c10Cfg c10Net rfl rfl rfl
  exact ⟨h.2.1 _ (Or.inl rfl),
    h.2.2 c10Biz 5 6 rfl rfl (by norm_num) (by norm_num) (by simp [c10Net])⟩

/-! ## C8: the provider client degrades and never raises -/

theorem try_models_loop_eq_findSome (env : AIEnv) (l : List (List Char)) :
    try_models_loop env l = l.findSome? (try_model env) := by
  induction l with
  | nil => rfl
  | cons m rest ih =>
    unfold try_models_loop
    rw [List.findSome?_cons]
    cases htm : try_model env m with
    | some t => rfl
    | none => exact ih

/-- C8 (as claimed): the client is a total function of the provider oracle;
with no credential, or a configuration failure, or when every candidate in
the try order fails or yields empty text, it returns the fixed fallback
string; otherwise it returns the stripped text of the first candidate in the
try order (explicit model first, then the ordered discovered models) whose
attempt yields non-empty text. -/
theorem C8_provider_client (env : AIEnv) :
    (env.gemini_key = none → get_ai_explanation env = fallback_text) ∧
    (env.configure_raises = true → get_ai_explanation env = fallback_text) ∧
    (env.gemini_key.isSome = true → env.configure_raises = false →
      get_ai_explanation env = ((tryOrder env).findSome? (try_model env)).getD fallback_text) ∧
    ((∀ m ∈ tryOrder env, try_model env m = none) →
      get_ai_explanation env = fallback_text) := by
  have hmain : env.gemini_key.isSome = true → env.configure_raises = false →
      get_ai_explanation env = ((tryOrder env).findSome? (try_model env)).getD fallback_text := by
    intro hk hc
    obtain ⟨k, hk2⟩ := Option.isSome_iff_exists.mp hk
    unfold get_ai_explanation
    rw [hk2]
    simp only [hc, Bool.false_eq_true, if_false]
    unfold tryOrder
    cases hm : env.explicit_model with
    | none =>
      simp only [Option.toList_none, List.nil_append]
      rw [try_models_loop_eq_findSome]
      cases hfs : (orderedToTry (discoveredNames env)).findSome? (try_model env) <;> rfl
    | some em =>
      simp only [Option.toList_some, List.cons_append, List.nil_append,
        List.findSome?_cons]
      cases htm : try_model env em with
      | some t => rfl
      | none =>
        rw [try_models_loop_eq_findSome]
        cases hfs : (orderedToTry (discoveredNames env)).findSome? (try_model env) <;> rfl
  refine ⟨?_, ?_, hmain, ?_⟩
  · intro hk
    unfold get_ai_explanation
    rw [hk]
  · intro hc
    cases hk : env.gemini_key with
    | none => unfold get_ai_explanation; rw [hk]
    | some k =>
      unfold get_ai_explanation
      rw [hk]
      simp only [hc, if_true]
  · intro hall
    cases hk : env.gemini_key with
    | none => unfold get_ai_explanation; rw [hk]
    | some k =>
      cases hc : env.configure_raises with
      | true =>
        unfold get_ai_explanation
        rw [hk]
        simp only [hc, if_true]
      | false =>
        rw [hmain (by rw [hk]; rfl) hc]
        rw [List.findSome?_eq_none_iff.mpr hall]
        rfl

def c8Env : AIEnv :=
  { gemini_key := some "key".data, explicit_model := none, configure_raises := false
    list_models := .ok [⟨"gemini-pro".data, ["generateContent".data]⟩]
    generate := fun _ => .text "  hi  ".data }

theorem C8_witness : get_ai_explanation c8Env = "hi".data := by
  have h := (C8_provider_client c8Env).2.2.1 rfl rfl
  rw [h]
  decide

end EcoSpark
